import Mathlib

/-!
Shallow embedding of the receivables-portfolio management application
(clients / operations / receipts).  Monetary amounts are modelled as
rationals, calendar dates as integers counting days (so that "dueDate is
strictly before today at day granularity", i.e. `isPast(d) && !isToday(d)`
on midnight-normalised dates, becomes `dueDate < today`).

The embedded functions mirror the in-memory state transitions of the
App-level handlers (`handleAddReceipt`, `handleDeleteReceipt`, the overdue
reclassification in `fetchData`, `handleAddOperation`'s installment
expansion) and the Dashboard / reminder derivations.  Store writes are out
of scope; the in-memory collections are the modelled state.
-/

/-- Operation lifecycle status: `aberto` (open), `pago` (paid),
`atrasado` (overdue). -/
inductive OperationStatus where
  | aberto
  | pago
  | atrasado
deriving DecidableEq, Repr

/-- An operation (discounted title), as held in the in-memory collection. -/
structure Operation where
  id : Nat
  clientId : Nat
  clientName : String
  opType : String
  titleNumber : String
  nominalValue : ℚ
  netValue : ℚ
  issueDate : Int
  dueDate : Int
  taxa : ℚ
  status : OperationStatus
deriving DecidableEq, Repr

/-- A receipt (payment event) against one operation. -/
structure Recebimento where
  id : Nat
  operationId : Nat
  data_recebimento : Int
  valor_total_recebido : ℚ
  valor_principal_pago : ℚ
  valor_juros_pago : ℚ
  forma_pagamento : String
  observacoes : String
deriving DecidableEq, Repr

/-- The payload of a new receipt, with the optional `newDueDate` that marks a
date-extension receipt. -/
structure NewRecebimento where
  operationId : Nat
  data_recebimento : Int
  valor_total_recebido : ℚ
  valor_principal_pago : ℚ
  valor_juros_pago : ℚ
  forma_pagamento : String
  observacoes : String
  newDueDate : Option Int
deriving DecidableEq, Repr

/-- The in-memory application state touched by receipt reconciliation. -/
structure AppState where
  operations : List Operation
  receipts : List Recebimento
deriving DecidableEq, Repr

/-- The persisted receipt built from a `NewRecebimento` payload and the
store-generated id (`handleAddReceipt`, step 1). -/
def mkReceipt (rd : NewRecebimento) (newId : Nat) : Recebimento :=
  { id := newId
    operationId := rd.operationId
    data_recebimento := rd.data_recebimento
    valor_total_recebido := rd.valor_total_recebido
    valor_principal_pago := rd.valor_principal_pago
    valor_juros_pago := rd.valor_juros_pago
    forma_pagamento := rd.forma_pagamento
    observacoes := rd.observacoes }

/-- `totalPrincipalPaid` as computed in `handleAddReceipt`: the sum of
`valor_principal_pago` over the receipts already recorded for the target
operation, plus the just-added receipt's principal. -/
def totalPrincipalAfter (receipts : List Recebimento) (rd : NewRecebimento) : ℚ :=
  ((receipts.filter (fun r => decide (r.operationId = rd.operationId))).map
    (fun r => r.valor_principal_pago)).sum + rd.valor_principal_pago

/-- `handleAddReceipt`: insert the receipt, then branch on `newDueDate`.
If present, replace the operation's due date and force status `aberto`.
If absent, set status to `pago` exactly when the principal total (including
the new receipt) reaches `nominalValue`; otherwise leave operations
untouched. -/
def handleAddReceipt (s : AppState) (rd : NewRecebimento) (newId : Nat) : AppState :=
  let receiptsAfter := mkReceipt rd newId :: s.receipts
  match s.operations.find? (fun op => decide (op.id = rd.operationId)) with
  | none => { s with receipts := receiptsAfter }
  | some operation =>
    match rd.newDueDate with
    | some nd =>
        { operations := s.operations.map (fun op =>
            if op.id = operation.id then { op with dueDate := nd, status := .aberto } else op)
          receipts := receiptsAfter }
    | none =>
        if operation.nominalValue ≤ totalPrincipalAfter s.receipts rd then
          { operations := s.operations.map (fun op =>
              if op.id = operation.id then { op with status := .pago } else op)
            receipts := receiptsAfter }
        else { s with receipts := receiptsAfter }

/-- `totalPrincipalPaid` as recomputed in `handleDeleteReceipt`: the sum of
`valor_principal_pago` over the receipts of the operation other than the one
being deleted. -/
def totalPrincipalRemaining (receipts : List Recebimento) (opId rid : Nat) : ℚ :=
  ((receipts.filter (fun r => decide (r.operationId = opId) && !(decide (r.id = rid)))).map
    (fun r => r.valor_principal_pago)).sum

/-- `handleDeleteReceipt`: if no receipt has the given id, do nothing.
Otherwise remove it; if the parent operation exists and its status is
`pago`, recompute the remaining principal total and, when it has dropped
below `nominalValue`, set the status to `atrasado` (due date strictly past
`today`) or `aberto`. -/
def handleDeleteReceipt (s : AppState) (rid : Nat) (today : Int) : AppState :=
  match s.receipts.find? (fun r => decide (r.id = rid)) with
  | none => s
  | some receiptToDelete =>
    let receiptsAfter := s.receipts.filter (fun r => !(decide (r.id = rid)))
    match s.operations.find? (fun op => decide (op.id = receiptToDelete.operationId)) with
    | none => { s with receipts := receiptsAfter }
    | some operation =>
      if operation.status ≠ .pago then { s with receipts := receiptsAfter }
      else if totalPrincipalRemaining s.receipts receiptToDelete.operationId rid <
              operation.nominalValue then
        let newStatus : OperationStatus := if operation.dueDate < today then .atrasado else .aberto
        { operations := s.operations.map (fun op =>
            if op.id = operation.id then { op with status := newStatus } else op)
          receipts := receiptsAfter }
      else { s with receipts := receiptsAfter }

/-- The overdue reclassification applied to the operation set in `fetchData`:
an operation that is `aberto` and strictly past due is shown as `atrasado`;
every other operation is kept as stored. -/
def updateOverdue (ops : List Operation) (today : Int) : List Operation :=
  ops.map (fun op =>
    if op.status = .aberto ∧ op.dueDate < today then { op with status := .atrasado } else op)

/-- The receipts recorded against one operation (`opReceipts` in the
Dashboard stats computation). -/
def opReceipts (receipts : List Recebimento) (op : Operation) : List Recebimento :=
  receipts.filter (fun r => decide (r.operationId = op.id))

/-- `paidPrincipal`: sum of `valor_principal_pago` over the operation's
receipts. -/
def paidPrincipal (receipts : List Recebimento) (op : Operation) : ℚ :=
  ((opReceipts receipts op).map (fun r => r.valor_principal_pago)).sum

/-- `paidInterest`: sum of `valor_juros_pago` over the operation's
receipts. -/
def paidInterest (receipts : List Recebimento) (op : Operation) : ℚ :=
  ((opReceipts receipts op).map (fun r => r.valor_juros_pago)).sum

/-- `originalInterest` exactly as the Dashboard computes it:
`op.nominalValue - op.netValue`. -/
def originalInterest (op : Operation) : ℚ :=
  op.nominalValue - op.netValue

/-- `remainingPrincipal = max(0, netValue - paidPrincipal)` (Dashboard). -/
def remainingPrincipal (receipts : List Recebimento) (op : Operation) : ℚ :=
  max 0 (op.netValue - paidPrincipal receipts op)

/-- `remainingInterest = max(0, originalInterest - paidInterest)`
(Dashboard), with `originalInterest` as the code computes it. -/
def remainingInterest (receipts : List Recebimento) (op : Operation) : ℚ :=
  max 0 (originalInterest op - paidInterest receipts op)

/-- `currentDebt = remainingPrincipal + remainingInterest` (Dashboard). -/
def currentDebt (receipts : List Recebimento) (op : Operation) : ℚ :=
  remainingPrincipal receipts op + remainingInterest receipts op

/-- The four aggregate metrics of the Dashboard `stats` memo. -/
structure Stats where
  activeCapital : ℚ
  totalReceivables : ℚ
  interestToReceive : ℚ
  delinquencyValue : ℚ
deriving DecidableEq, Repr

/-- The `activeOperations` filter of the Dashboard: operations with status
`aberto` or `atrasado`. -/
def activeOperations (ops : List Operation) : List Operation :=
  ops.filter (fun op => decide (op.status = .aberto) || decide (op.status = .atrasado))

/-- One iteration of the Dashboard's `forEach` accumulation over active
operations. -/
def statsStep (receipts : List Recebimento) (acc : Stats) (op : Operation) : Stats :=
  { activeCapital := acc.activeCapital + remainingPrincipal receipts op
    totalReceivables := acc.totalReceivables + currentDebt receipts op
    interestToReceive := acc.interestToReceive + remainingInterest receipts op
    delinquencyValue := acc.delinquencyValue +
      (if op.status = .atrasado then currentDebt receipts op else 0) }

/-- The Dashboard `stats` memo: fold the accumulation over the active
operations, starting from all-zero totals. -/
def statsOf (ops : List Operation) (receipts : List Recebimento) : Stats :=
  (activeOperations ops).foldl (statsStep receipts) ⟨0, 0, 0, 0⟩

/-- A due-date reminder as derived in `activeReminders`. -/
structure Reminder where
  id : Nat
  operationId : Nat
  clientName : String
  dueDate : Int
  nominalValue : ℚ
deriving DecidableEq, Repr

/-- Ordering used to sort reminders: ascending due date. -/
def reminderLE (a b : Reminder) : Prop :=
  a.dueDate ≤ b.dueDate

instance : DecidableRel reminderLE := fun a b =>
  inferInstanceAs (Decidable (a.dueDate ≤ b.dueDate))

instance : IsTotal Reminder reminderLE :=
  ⟨fun a b => Int.le_total a.dueDate b.dueDate⟩

instance : IsTrans Reminder reminderLE :=
  ⟨fun _ _ _ hab hbc => le_trans hab hbc⟩

/-- The `activeReminders` derivation: keep operations whose status is
`aberto` and whose id was not dismissed, with `daysDiff = dueDate - today`
in `[0, 7]`; map them to reminders and sort ascending by due date. -/
def activeReminders (ops : List Operation) (dismissedReminderIds : List Nat)
    (today : Int) : List Reminder :=
  List.insertionSort reminderLE
    ((ops.filter (fun op =>
        (decide (op.status = .aberto) && !(dismissedReminderIds.contains op.id)) &&
        (decide (0 ≤ op.dueDate - today) && decide (op.dueDate - today ≤ 7)))).map
      (fun op => ⟨op.id, op.id, op.clientName, op.dueDate, op.nominalValue⟩))

/-- `round2`: rounding to two decimal places, as performed by
`parseFloat(x.toFixed(2))` (round to the nearest hundredth, ties toward
positive infinity, matching `round`). -/
def round2 (x : ℚ) : ℚ :=
  (round (100 * x) : ℤ) / 100

/-- The nominal values produced by the installment expansion in
`handleAddOperation`: each installment gets `round2(totalNominal / count)`
and the last one additionally absorbs the rounding residual
`round2(totalNominal - perInstallment * count)`. -/
def installmentValues (totalNominal : ℚ) (count : ℕ) : List ℚ :=
  let nominalPerInstallment := round2 (totalNominal / (count : ℚ))
  let diff := round2 (totalNominal - nominalPerInstallment * (count : ℚ))
  (List.range count).map (fun i =>
    if i = count - 1 then nominalPerInstallment + diff else nominalPerInstallment)

/-- Modelled from the spec for comparison with the code: remaining interest
with `originalInterest = netValue - nominalValue` (the interest markup),
floored at zero. -/
def specRemainingInterest (receipts : List Recebimento) (op : Operation) : ℚ :=
  max 0 ((op.netValue - op.nominalValue) - paidInterest receipts op)

/- Concrete sample data used to instantiate the theorems below. -/

/-- Sample operation: nominal 500, net 550, due on day 10, open. -/
def cw1op : Operation := ⟨1, 1, "c", "cheque", "001", 500, 550, 0, 10, 10, .aberto⟩

/-- Sample receipt: 300 of principal already paid on operation 1. -/
def cw1r : Recebimento := ⟨10, 1, 1, 300, 300, 0, "pix", ""⟩

/-- Sample settlement receipt payload: 200 more of principal, no new due
date. -/
def cw1rd : NewRecebimento := ⟨1, 2, 200, 200, 0, "pix", "", none⟩

/-- Sample state holding `cw1op` and `cw1r`. -/
def cw1s : AppState := ⟨[cw1op], [cw1r]⟩

/-- Sample overdue operation whose principal is already fully paid. -/
def cw2op : Operation := ⟨1, 1, "c", "cheque", "001", 500, 550, 0, 10, 10, .atrasado⟩

/-- Sample extension receipt payload: carries `newDueDate = 42` and also
600 of principal (more than the nominal value). -/
def cw2rd : NewRecebimento := ⟨1, 2, 600, 600, 0, "pix", "", some 42⟩

/-- Sample state holding `cw2op` with no receipts. -/
def cw2s : AppState := ⟨[cw2op], []⟩

/-- Sample paid operation: nominal 500, due on day 3 (in the past). -/
def cw3op : Operation := ⟨1, 1, "c", "cheque", "001", 500, 550, 0, 3, 10, .pago⟩

/-- Sample receipt that settled `cw3op` with 500 of principal. -/
def cw3r : Recebimento := ⟨10, 1, 1, 500, 500, 0, "pix", ""⟩

/-- Sample state holding `cw3op` and `cw3r`. -/
def cw3s : AppState := ⟨[cw3op], [cw3r]⟩

/-- Sample open operation due on day 3, viewed on day 10 (overdue). -/
def cw8op : Operation := ⟨1, 1, "c", "cheque", "001", 500, 550, 0, 3, 10, .aberto⟩

/-- Sample paid operation used for the aggregation-scope instance. -/
def cw7op : Operation := ⟨1, 1, "c", "cheque", "001", 100, 110, 0, 3, 10, .pago⟩

/-- The failing input for the interest-base divergence: nominal 100,
net 110, open, no receipts. -/
def c4op : Operation := ⟨1, 1, "c", "cheque", "001", 100, 110, 0, 30, 10, .aberto⟩

/-- Sample operation for the remainder floor: nominal 100, net 110. -/
def c6op : Operation := ⟨1, 1, "c", "cheque", "001", 100, 110, 0, 30, 10, .aberto⟩

/-- Sample over-payment receipt: 150 of principal against `c6op`. -/
def c6r : Recebimento := ⟨10, 1, 1, 150, 150, 0, "pix", ""⟩

/-- Counterexample operation for the reminder claim: status `atrasado`,
due on day 3 with today = day 0 (inside the 7-day window), not dismissed. -/
def c9op : Operation := ⟨1, 1, "c", "cheque", "001", 100, 110, 0, 3, 10, .atrasado⟩

/-- C1: for every operation and settlement receipt (no `newDueDate`)
applied to it, the status is set to `pago` exactly when the sum of
`valor_principal_pago` over all receipts of the operation, including the
just-added one, reaches `nominalValue` (principal-only comparison); below
the threshold the operations are left unchanged. -/
theorem addReceipt_settlement_pago_iff
    (s : AppState) (rd : NewRecebimento) (newId : Nat) (op : Operation)
    (hfind : s.operations.find? (fun o => decide (o.id = rd.operationId)) = some op)
    (hext : rd.newDueDate = none) :
    (handleAddReceipt s rd newId).receipts = mkReceipt rd newId :: s.receipts
    ∧ (op.nominalValue ≤ totalPrincipalAfter s.receipts rd →
        (handleAddReceipt s rd newId).operations =
          s.operations.map (fun o =>
            if o.id = op.id then { o with status := .pago } else o))
    ∧ (totalPrincipalAfter s.receipts rd < op.nominalValue →
        (handleAddReceipt s rd newId).operations = s.operations) := by
  refine ⟨?_, ?_, ?_⟩
  · simp only [handleAddReceipt, hfind, hext]
    split <;> rfl
  · intro h
    simp only [handleAddReceipt, hfind, hext, if_pos h]
  · intro h
    simp only [handleAddReceipt, hfind, hext, if_neg (not_le.mpr h)]

/-- Witness for C1 at a concrete input: 300 already paid, 200 more arrives,
nominal 500, so the operation is marked `pago`. -/
theorem addReceipt_settlement_pago_iff_witness :
    cw1s.operations.find? (fun o => decide (o.id = cw1rd.operationId)) = some cw1op
    ∧ cw1op.nominalValue ≤ totalPrincipalAfter cw1s.receipts cw1rd
    ∧ (handleAddReceipt cw1s cw1rd 11).operations =
        cw1s.operations.map (fun o =>
          if o.id = cw1op.id then { o with status := .pago } else o) :=
  ⟨by decide, by norm_num [totalPrincipalAfter, cw1s, cw1rd, cw1op, cw1r],
    (addReceipt_settlement_pago_iff cw1s cw1rd 11 cw1op (by decide) rfl).2.1
      (by norm_num [totalPrincipalAfter, cw1s, cw1rd, cw1op, cw1r])⟩

/-- C2: a receipt carrying a `newDueDate` replaces the operation's due date,
forces status `aberto` regardless of the prior status, and performs no
payment-completion check (the result does not depend on any principal
total). -/
theorem addReceipt_extension_forces_aberto
    (s : AppState) (rd : NewRecebimento) (newId : Nat) (op : Operation) (nd : Int)
    (hfind : s.operations.find? (fun o => decide (o.id = rd.operationId)) = some op)
    (hext : rd.newDueDate = some nd) :
    (handleAddReceipt s rd newId).operations =
      s.operations.map (fun o =>
        if o.id = op.id then { o with dueDate := nd, status := .aberto } else o)
    ∧ (handleAddReceipt s rd newId).receipts = mkReceipt rd newId :: s.receipts := by
  constructor <;> simp only [handleAddReceipt, hfind, hext]

/-- Witness for C2 at a concrete input: an `atrasado` operation whose
principal is fully paid by the extension receipt still becomes `aberto`
with the new due date 42 (no completion check). -/
theorem addReceipt_extension_forces_aberto_witness :
    cw2s.operations.find? (fun o => decide (o.id = cw2rd.operationId)) = some cw2op
    ∧ cw2op.nominalValue ≤ totalPrincipalAfter cw2s.receipts cw2rd
    ∧ (handleAddReceipt cw2s cw2rd 11).operations =
        cw2s.operations.map (fun o =>
          if o.id = cw2op.id then { o with dueDate := 42, status := .aberto } else o) :=
  ⟨by decide, by norm_num [totalPrincipalAfter, cw2s, cw2rd, cw2op],
    (addReceipt_extension_forces_aberto cw2s cw2rd 11 cw2op 42 (by decide) rfl).1⟩

/-- C10: deleting a receipt id that is not present in the receipt
collection is a complete no-op on the state. -/
theorem deleteReceipt_missing_id_noop
    (s : AppState) (rid : Nat) (today : Int)
    (h : s.receipts.find? (fun r => decide (r.id = rid)) = none) :
    handleDeleteReceipt s rid today = s := by
  simp only [handleDeleteReceipt, h]

/-- Witness for C10 at a concrete input: deleting receipt id 99, which does
not exist in the sample state, leaves the state unchanged. -/
theorem deleteReceipt_missing_id_noop_witness :
    cw1s.receipts.find? (fun r => decide (r.id = 99)) = none
    ∧ handleDeleteReceipt cw1s 99 5 = cw1s :=
  ⟨by decide, deleteReceipt_missing_id_noop cw1s 99 5 (by decide)⟩

/-- C3: deleting an existing receipt removes it from the receipt set; if the
parent operation's status was not `pago` nothing else changes; otherwise the
principal total over the remaining receipts is recomputed and, when still at
least `nominalValue`, the operations are unchanged (status stays `pago`),
while below `nominalValue` the status becomes `atrasado` when the due date
is strictly past and `aberto` otherwise. -/
theorem deleteReceipt_reversal
    (s : AppState) (rid : Nat) (today : Int) (rcpt : Recebimento) (op : Operation)
    (hr : s.receipts.find? (fun r => decide (r.id = rid)) = some rcpt)
    (hop : s.operations.find? (fun o => decide (o.id = rcpt.operationId)) = some op) :
    (handleDeleteReceipt s rid today).receipts =
      s.receipts.filter (fun r => !(decide (r.id = rid)))
    ∧ (op.status ≠ .pago → (handleDeleteReceipt s rid today).operations = s.operations)
    ∧ (op.status = .pago →
        (op.nominalValue ≤ totalPrincipalRemaining s.receipts rcpt.operationId rid →
          (handleDeleteReceipt s rid today).operations = s.operations)
        ∧ (totalPrincipalRemaining s.receipts rcpt.operationId rid < op.nominalValue →
          (handleDeleteReceipt s rid today).operations =
            s.operations.map (fun o =>
              if o.id = op.id then
                { o with status := if op.dueDate < today then .atrasado else .aberto }
              else o))) := by
  refine ⟨?_, ?_, ?_⟩
  · simp only [handleDeleteReceipt, hr, hop]
    split <;> first
      | rfl
      | (split <;> rfl)
  · intro h
    simp only [handleDeleteReceipt, hr, hop, if_pos h]
  · intro h
    constructor
    · intro hge
      simp only [handleDeleteReceipt, hr, hop, if_neg (by simp [h] : ¬op.status ≠ .pago),
        if_neg (not_lt.mpr hge)]
    · intro hlt
      simp only [handleDeleteReceipt, hr, hop, if_neg (by simp [h] : ¬op.status ≠ .pago),
        if_pos hlt]

/-- Witness for C3 at the spec's concrete reversal example: a 500-nominal
operation paid by a single 500-principal receipt, due date (day 3) strictly
before today (day 5); deleting the receipt sets status `atrasado`. -/
theorem deleteReceipt_reversal_witness :
    cw3s.receipts.find? (fun r => decide (r.id = 10)) = some cw3r
    ∧ cw3op.status = .pago
    ∧ totalPrincipalRemaining cw3s.receipts cw3r.operationId 10 < cw3op.nominalValue
    ∧ (handleDeleteReceipt cw3s 10 5).operations =
        cw3s.operations.map (fun o =>
          if o.id = cw3op.id then
            { o with status := if cw3op.dueDate < (5 : Int) then .atrasado else .aberto }
          else o) :=
  ⟨by decide, rfl, by norm_num [totalPrincipalRemaining, cw3s, cw3r, cw3op],
    ((deleteReceipt_reversal cw3s 10 5 cw3r cw3op (by decide) (by decide)).2.2 rfl).2
      (by norm_num [totalPrincipalRemaining, cw3s, cw3r, cw3op])⟩

/-- C8: after loading, an `aberto` operation strictly past due is shown as
`atrasado`, every other operation keeps its stored status, and the loaded
set never contains an operation that is both `aberto` and strictly past
due. -/
theorem loaded_operations_overdue_invariant (ops : List Operation) (today : Int) :
    List.Forall₂ (fun op opShown =>
        (op.status = .aberto ∧ op.dueDate < today →
          opShown = { op with status := .atrasado })
        ∧ (¬(op.status = .aberto ∧ op.dueDate < today) → opShown = op))
      ops (updateOverdue ops today)
    ∧ ∀ opShown ∈ updateOverdue ops today,
        ¬(opShown.status = .aberto ∧ opShown.dueDate < today) := by
  constructor
  · rw [updateOverdue, List.forall₂_map_right_iff, List.forall₂_same]
    intro op _
    constructor
    · intro h
      rw [if_pos h]
    · intro h
      rw [if_neg h]
  · intro opShown hmem
    rw [updateOverdue, List.mem_map] at hmem
    obtain ⟨op, -, rfl⟩ := hmem
    by_cases h : op.status = .aberto ∧ op.dueDate < today
    · rw [if_pos h]
      rintro ⟨hst, -⟩
      exact OperationStatus.noConfusion hst
    · rw [if_neg h]
      exact h

/-- Witness for C8 at a concrete input: loading a single open operation due
on day 3 with today = day 10 yields an operation that is not both `aberto`
and past due. -/
theorem loaded_operations_overdue_invariant_witness :
    ({ cw8op with status := .atrasado } : Operation) ∈ updateOverdue [cw8op] 10
    ∧ ¬(({ cw8op with status := .atrasado } : Operation).status = .aberto
        ∧ ({ cw8op with status := .atrasado } : Operation).dueDate < 10) :=
  ⟨by decide,
    (loaded_operations_overdue_invariant [cw8op] 10).2
      { cw8op with status := .atrasado } (by decide)⟩

/-- Unfolding of the Dashboard `forEach` accumulation: each metric is the
starting value plus the sum of its per-operation contribution. -/
theorem statsOf_foldl (receipts : List Recebimento) (l : List Operation) (acc : Stats) :
    l.foldl (statsStep receipts) acc =
      { activeCapital := acc.activeCapital + (l.map (remainingPrincipal receipts)).sum
        totalReceivables := acc.totalReceivables + (l.map (currentDebt receipts)).sum
        interestToReceive := acc.interestToReceive + (l.map (remainingInterest receipts)).sum
        delinquencyValue := acc.delinquencyValue + (l.map
          (fun op => if op.status = .atrasado then currentDebt receipts op else 0)).sum } := by
  induction l generalizing acc with
  | nil => simp
  | cons hd tl ih =>
    rw [List.foldl_cons, ih]
    simp only [statsStep, List.map_cons, List.sum_cons, Stats.mk.injEq]
    refine ⟨by ring, by ring, by ring, by ring⟩

/-- The Dashboard metrics as sums over the active operations. -/
theorem statsOf_eq (ops : List Operation) (receipts : List Recebimento) :
    statsOf ops receipts =
      { activeCapital := ((activeOperations ops).map (remainingPrincipal receipts)).sum
        totalReceivables := ((activeOperations ops).map (currentDebt receipts)).sum
        interestToReceive := ((activeOperations ops).map (remainingInterest receipts)).sum
        delinquencyValue := ((activeOperations ops).map
          (fun op => if op.status = .atrasado then currentDebt receipts op else 0)).sum } := by
  rw [statsOf, statsOf_foldl]
  simp

/-- C7: the aggregator iterates only active operations — a `pago` operation
contributes nothing to any metric; `totalReceivables` is always
`activeCapital + interestToReceive`; an `aberto` operation contributes its
current debt to `totalReceivables` but nothing to `delinquencyValue`; and
with no `atrasado` operation present, `delinquencyValue` is zero. -/
theorem dashboard_stats_scope (ops : List Operation) (receipts : List Recebimento)
    (op : Operation) :
    (op.status = .pago → statsOf (op :: ops) receipts = statsOf ops receipts)
    ∧ (statsOf ops receipts).totalReceivables =
        (statsOf ops receipts).activeCapital + (statsOf ops receipts).interestToReceive
    ∧ (op.status = .aberto →
        (statsOf (op :: ops) receipts).totalReceivables =
          (statsOf ops receipts).totalReceivables + currentDebt receipts op
        ∧ (statsOf (op :: ops) receipts).delinquencyValue =
          (statsOf ops receipts).delinquencyValue)
    ∧ (statsOf (ops.filter (fun o => !(decide (o.status = .atrasado))))
        receipts).delinquencyValue = 0 := by
  refine ⟨?_, ?_, ?_, ?_⟩
  · intro h
    have hact : activeOperations (op :: ops) = activeOperations ops := by
      simp [activeOperations, List.filter_cons, h]
    rw [statsOf, hact, statsOf]
  · rw [statsOf_eq]
    have hmap : List.map (currentDebt receipts) (activeOperations ops) =
        List.map (fun o => remainingPrincipal receipts o + remainingInterest receipts o)
          (activeOperations ops) := rfl
    rw [hmap, List.sum_map_add]
  · intro h
    have hact : activeOperations (op :: ops) = op :: activeOperations ops := by
      simp [activeOperations, List.filter_cons, h]
    rw [statsOf_eq, statsOf_eq, hact]
    simp only [List.map_cons, List.sum_cons, h]
    constructor
    · ring
    · rw [if_neg (by simp)]
      ring
  · rw [statsOf_eq]
    apply List.sum_eq_zero
    intro x hx
    rw [List.mem_map] at hx
    obtain ⟨o, ho, rfl⟩ := hx
    have hno : o.status ≠ .atrasado := by
      rw [activeOperations, List.mem_filter] at ho
      have := List.of_mem_filter ho.1
      simpa using this
    rw [if_neg hno]

/-- Witness for C7 at a concrete input: adding a `pago` operation to the
empty portfolio leaves the metrics unchanged. -/
theorem dashboard_stats_scope_witness :
    cw7op.status = .pago ∧ statsOf [cw7op] [] = statsOf [] [] :=
  ⟨rfl, (dashboard_stats_scope [] [] cw7op).1 rfl⟩

/-- C4 (divergence at the failing input): with nominal 100, net 110 and no
receipts, the Dashboard computes `originalInterest = nominalValue - netValue
= -10`, so its remaining interest and `interestToReceive` are 0, whereas the
spec's base `originalInterest = netValue - nominalValue` gives remaining
interest 10. -/
theorem dashboard_interest_base_bug :
    originalInterest c4op = -10
    ∧ remainingInterest [] c4op = 0
    ∧ (statsOf [c4op] []).interestToReceive = 0
    ∧ specRemainingInterest [] c4op = 10 := by
  refine ⟨?_, ?_, ?_, ?_⟩ <;>
    norm_num [originalInterest, remainingInterest, specRemainingInterest, paidInterest,
      opReceipts, statsOf, activeOperations, statsStep, c4op, remainingPrincipal,
      paidPrincipal, currentDebt]

/-- C6: the aggregator's remaining principal is
`max(0, netValue - paidPrincipal)` with `paidPrincipal` the sum of
`valor_principal_pago` over the operation's receipts (so `netValue` is the
principal-bearing base); it is never negative; and at nominal 100, net 110
with a single 150-principal receipt it equals 0. -/
theorem remaining_principal_floor (receipts : List Recebimento) (op : Operation) :
    remainingPrincipal receipts op =
      max 0 (op.netValue -
        ((receipts.filter (fun r => decide (r.operationId = op.id))).map
          (fun r => r.valor_principal_pago)).sum)
    ∧ 0 ≤ remainingPrincipal receipts op
    ∧ remainingPrincipal [c6r] c6op = 0 := by
  refine ⟨rfl, le_max_left 0 _, ?_⟩
  norm_num [remainingPrincipal, paidPrincipal, opReceipts, c6r, c6op]

/-- Sum of a range-indexed list that holds `a` everywhere except at the
last index, which holds `a + d`. -/
theorem sum_range_map_last (m : ℕ) (a d : ℚ) (hm : 1 ≤ m) :
    ((List.range m).map (fun i => if i = m - 1 then a + d else a)).sum = m * a + d := by
  obtain ⟨k, rfl⟩ : ∃ k, m = k + 1 := ⟨m - 1, by omega⟩
  rw [List.range_succ, List.map_append, List.sum_append]
  have h1 : (List.range k).map (fun i => if i = k + 1 - 1 then a + d else a) =
      List.replicate k a := by
    rw [List.eq_replicate_iff]
    refine ⟨by simp, ?_⟩
    intro b hb
    rw [List.mem_map] at hb
    obtain ⟨i, hi, rfl⟩ := hb
    rw [List.mem_range] at hi
    rw [if_neg (by omega)]
  rw [h1, List.sum_replicate, nsmul_eq_mul]
  simp only [List.map_cons, List.map_nil, List.sum_cons, List.sum_nil, Nat.add_sub_cancel,
    add_zero, if_pos rfl]
  push_cast
  ring

/-- C5: for every nominal value and installment count in `[2, 60]`, the
expansion produces `count` installments; their sum is exactly the
two-decimal rounding of the nominal value, and when the nominal value is a
currency amount (an integer number of cents) the sum equals it exactly. -/
theorem installment_values_sum (n : ℚ) (count : ℕ) (h2 : 2 ≤ count) (h60 : count ≤ 60) :
    (installmentValues n count).length = count
    ∧ (installmentValues n count).sum = round2 n
    ∧ (∀ N : ℤ, n = (N : ℚ) / 100 → (installmentValues n count).sum = n) := by
  have hsum : (installmentValues n count).sum = round2 n := by
    rw [show installmentValues n count =
        (List.range count).map (fun i =>
          if i = count - 1 then round2 (n / (count : ℚ)) +
            round2 (n - round2 (n / (count : ℚ)) * (count : ℚ))
          else round2 (n / (count : ℚ))) from rfl]
    rw [sum_range_map_last count _ _ (by omega)]
    simp only [round2]
    set rp : ℤ := round ((100 : ℚ) * (n / (count : ℚ))) with hrp
    have harg : (100 : ℚ) * (n - (rp : ℚ) / 100 * (count : ℚ))
        = 100 * n - ((rp * (count : ℤ) : ℤ) : ℚ) := by
      push_cast
      ring
    rw [harg, round_sub_int]
    push_cast
    ring
  refine ⟨by simp [installmentValues], hsum, ?_⟩
  intro N hN
  rw [hsum, hN, round2, show (100 : ℚ) * ((N : ℚ) / 100) = (N : ℚ) by ring, round_intCast]

/-- Witness for C5 at a concrete input: splitting 100 into 3 installments
gives 3 values (33.33, 33.33, 33.34) summing exactly to 100. -/
theorem installment_values_sum_witness :
    (installmentValues 100 3).length = 3 ∧ (installmentValues 100 3).sum = 100 :=
  ⟨(installment_values_sum 100 3 (by norm_num) (by norm_num)).1,
    (installment_values_sum 100 3 (by norm_num) (by norm_num)).2.2 10000 (by norm_num)⟩

/-- C9 counterexample: an operation with status `atrasado`, due inside the
`[today, today+7]` window (due day 3, today day 0) and not dismissed, is
NOT in the reminder list — the derivation keeps only `aberto` operations,
so the list is empty at this input. -/
theorem activeReminders_excludes_atrasado_cex :
    c9op.status = .atrasado
    ∧ (0 : Int) ≤ c9op.dueDate ∧ c9op.dueDate ≤ 0 + 7
    ∧ ([] : List Nat).contains c9op.id = false
    ∧ activeReminders [c9op] [] 0 = [] := by
  refine ⟨rfl, by norm_num [c9op], by norm_num [c9op], rfl, ?_⟩
  rfl

/-- C9 (amended): the reminder list contains exactly the operations with
status `aberto` (not `atrasado`) whose due date lies within
`[today, today+7]` inclusive and whose id is not dismissed, sorted
ascending by due date. -/
theorem activeReminders_characterization (ops : List Operation) (dismissed : List Nat)
    (today : Int) :
    (activeReminders ops dismissed today).Perm
      ((ops.filter (fun op =>
          (decide (op.status = .aberto) && !(dismissed.contains op.id)) &&
          (decide (today ≤ op.dueDate) && decide (op.dueDate ≤ today + 7)))).map
        (fun op => ⟨op.id, op.id, op.clientName, op.dueDate, op.nominalValue⟩))
    ∧ List.Sorted reminderLE (activeReminders ops dismissed today) := by
  constructor
  · have hfilter : ops.filter (fun op =>
        (decide (op.status = .aberto) && !(dismissed.contains op.id)) &&
        (decide (0 ≤ op.dueDate - today) && decide (op.dueDate - today ≤ 7))) =
        ops.filter (fun op =>
          (decide (op.status = .aberto) && !(dismissed.contains op.id)) &&
          (decide (today ≤ op.dueDate) && decide (op.dueDate ≤ today + 7))) := by
      apply List.filter_congr
      intro op _
      have h1 : decide (0 ≤ op.dueDate - today) = decide (today ≤ op.dueDate) :=
        decide_eq_decide.mpr (by omega)
      have h2 : decide (op.dueDate - today ≤ 7) = decide (op.dueDate ≤ today + 7) :=
        decide_eq_decide.mpr (by omega)
      rw [h1, h2]
    rw [activeReminders, hfilter]
    exact List.perm_insertionSort reminderLE _
  · exact List.sorted_insertionSort reminderLE _
